import Mathlib

/-!
Shallow embedding of the ratatouille recipe-recommendation pipeline:
the LangGraph orchestrator (src/backend/graph.py, src/backend/state.py),
the extraction stage cap (src/backend/agents/recipe_hunter.py) and the
ranking / diversity-selection engine (src/backend/agents/personalization.py).

Python floats are modelled as exact rationals (ℚ); the literal `0.3` of the
overlap-ratio test is modelled as `3/10`, which agrees with the float
comparison for all ratios whose denominator is a realistic token-set size.
Python strings are modelled through their character lists; `str.lower()` is
the ASCII lowering `Char.toLower`, `in` on strings is substring containment,
and `str.split()` splits on whitespace runs.
-/

namespace Ratatouille

/-! ### String helpers (Python `str` operations) -/

/-- Python `s.lower()` (ASCII). -/
def lowerStr (s : String) : String := ⟨s.data.map Char.toLower⟩

/-- `charListPre a b` holds when `a` is a leading segment of `b`. -/
def charListPre : List Char → List Char → Bool
  | [], _ => true
  | _ :: _, [] => false
  | a :: as, b :: bs => a == b && charListPre as bs

/-- `charListHas need hay` holds when `need` occurs contiguously in `hay`. -/
def charListHas (need : List Char) : List Char → Bool
  | [] => need.isEmpty
  | c :: rest => charListPre need (c :: rest) || charListHas need rest

/-- Python `need in hay` for strings. -/
def strContains (hay need : String) : Bool := charListHas need.data hay.data

def isSpaceChar (c : Char) : Bool := c == ' ' || c == '\t' || c == '\n' || c == '\r'

/-- Worker for `pySplit`; `acc` holds the current word reversed. -/
def splitWordsAux : List Char → List Char → List String
  | acc, [] => if acc.isEmpty then [] else [⟨acc.reverse⟩]
  | acc, c :: cs =>
    if isSpaceChar c then
      if acc.isEmpty then splitWordsAux [] cs
      else (⟨acc.reverse⟩ : String) :: splitWordsAux [] cs
    else splitWordsAux (c :: acc) cs

/-- Python `s.split()`: split on whitespace runs, no empty words. -/
def pySplit (s : String) : List String := splitWordsAux [] s.data

/-! ### Data model

One raw candidate record as produced by `recipe_hunter_agent`
(`_parse_recipe_from_snippet` plus the metadata it attaches).  Fields read
through `dict.get` with a default in `personalization.py` are `Option`s
(`difficulty`, `published_date`, `tavily_score`); the parse step always
populates the rest. -/

structure Recipe where
  title : String
  url : String
  techniques : List String
  ingredients : List String
  instructions : List String
  time_estimate : String
  difficulty : Option String
  published_date : Option String
  tavily_score : Option ℚ
  source : String
  author : String
  deriving DecidableEq, Repr

/-- One entry of `scored_recipes`: `{"recipe": recipe, "score": score}`. -/
structure Scored where
  recipe : Recipe
  score : ℚ
  deriving DecidableEq, Repr

/-! ### Scoring (`_score_recipe` in personalization.py) -/

/-- `TECHNIQUE_MAP` of personalization.py. -/
def TECHNIQUE_MAP : List (String × List String) :=
  [("pan sauces", ["deglazing", "emulsification", "reduction", "mounting butter"]),
   ("bread baking", ["kneading", "proofing", "scoring", "fermentation"]),
   ("knife skills", ["julienne", "brunoise", "chiffonade", "dicing"]),
   ("roasting", ["searing", "basting", "temperature control", "resting"]),
   ("pasta", ["dough making", "rolling", "shaping", "sauce pairing"])]

/-- `recipe_techniques`: the recipe's technique tags lowercased
(the defensive one-level flattening of nested lists is identity here,
since tags are modelled as strings). -/
def recipeTechniques (r : Recipe) : List String := r.techniques.map lowerStr

/-- `TECHNIQUE_MAP.get(learning_goal, learning_goal.split())` on the
lowercased goal. -/
def relevantTechniques (goal : String) : List String :=
  (TECHNIQUE_MAP.lookup (lowerStr goal)).getD (pySplit (lowerStr goal))

/-- `matches = sum(1 for tech in relevant_techniques
      if any(tech in rt for rt in recipe_techniques))`. -/
def matchCount (relevant techs : List String) : Nat :=
  (relevant.filter (fun tech => techs.any (fun rt => strContains rt tech))).length

/-- Learning-value term: `min(matches * 10, 30)`. -/
def learningScore (relevant techs : List String) : ℚ :=
  min ((matchCount relevant techs : ℚ) * 10) 30

/-- Skill-match term: the `skill_scores` nested dict,
`skill_scores.get(skill_level, {}).get(recipe_difficulty, 10)`. -/
def skillScore (skill diff : String) : ℚ :=
  if skill = "beginner" then
    if diff = "beginner" then 25
    else if diff = "intermediate" then 8
    else if diff = "advanced" then -10
    else 10
  else if skill = "intermediate" then
    if diff = "beginner" then 3
    else if diff = "intermediate" then 25
    else if diff = "advanced" then 12
    else 10
  else if skill = "advanced" then
    if diff = "beginner" then -10
    else if diff = "intermediate" then 8
    else if diff = "advanced" then 25
    else 10
  else 10

/-- Recency term.  The source adds a banded bonus only under
`if published and published != "Unknown":`; an empty or `"Unknown"` date
adds nothing.  The `except: score += 10` branch of the source is dead for
string dates (substring tests on a `str` cannot raise). -/
def recencyScore (published : String) : ℚ :=
  if published ≠ "" ∧ published ≠ "Unknown" then
    if strContains published "2024" || strContains published "2025" then 20
    else if strContains published "2023" then 15
    else if strContains published "2022" then 10
    else 5
  else 0

/-- Source-relevance term: `recipe.get("tavily_score", 0.5) * 15`. -/
def sourceScore (ts : Option ℚ) : ℚ := ts.getD (1/2) * 15

/-- Technique-diversity term over `recipe_techniques`. -/
def diversityScore (techs : List String) : ℚ :=
  if 3 ≤ techs.length then 10
  else if 2 ≤ techs.length then 5
  else 0

/-- `_score_recipe(recipe, state)`: the unclamped sum of the five terms. -/
def score_recipe (goal skill : String) (r : Recipe) : ℚ :=
  learningScore (relevantTechniques goal) (recipeTechniques r)
  + skillScore skill (r.difficulty.getD "intermediate")
  + recencyScore (r.published_date.getD "")
  + sourceScore r.tavily_score
  + diversityScore (recipeTechniques r)

/-! ### Dietary filter (`_filter_recipes`) -/

/-- `restrictions_map` of `_filter_recipes`. -/
def restrictions_map : List (String × List String) :=
  [("vegetarian", ["chicken", "beef", "pork", "fish", "meat"]),
   ("vegan", ["chicken", "beef", "pork", "fish", "meat", "egg", "dairy", "milk", "cheese", "butter"]),
   ("gluten-free", ["flour", "wheat", "bread", "pasta"])]

/-- `ingredients_text`: flattened ingredients joined by spaces, lowercased. -/
def ingredientsText (r : Recipe) : String :=
  lowerStr (String.intercalate " " r.ingredients)

/-- `skip_recipe` becomes true when any active restriction's forbidden word
occurs in the ingredients text. -/
def violatesDietary (restrictions : List String) (r : Recipe) : Bool :=
  restrictions.any (fun restriction =>
    ((restrictions_map.lookup (lowerStr restriction)).getD []).any
      (fun w => strContains (ingredientsText r) w))

/-- `_filter_recipes(recipes, dietary_restrictions, skill_level)`;
`skill_level` is accepted and unused, exactly as in the source. -/
def filter_recipes (recipes : List Recipe) (restrictions : List String)
    (_skill : String) : List Recipe :=
  recipes.filter (fun r => !(violatesDietary restrictions r))

/-! ### Stable descending sort (`scored_recipes.sort(key=..., reverse=True)`)

Python's `list.sort` is a stable sort; with `reverse=True` equal keys keep
their original relative order.  The insertion below places a new element
before the first existing element whose score does not exceed it, which is
the unique stable descending ordering. -/

def insertScored (x : Scored) : List Scored → List Scored
  | [] => [x]
  | y :: ys => if y.score ≤ x.score then x :: y :: ys else y :: insertScored x ys

def sortScored : List Scored → List Scored
  | [] => []
  | x :: xs => insertScored x (sortScored xs)

/-! ### Diversity selection (`_select_diverse_recipes`) -/

/-- `common_words` stop-word set. -/
def common_words : List String :=
  ["with", "and", "the", "in", "for", "to", "recipe", "easy", "simple",
   "best", "a", "an", "how", "make", "homemade"]

/-- `set(word for word in title.split() if word not in common_words)`,
modelled as a deduplicated list (the title is lowercased by the caller). -/
def keyWords (title : String) : List String :=
  ((pySplit title).filter (fun w => !(decide (w ∈ common_words)))).dedup

/-- The two title-similarity tests against one already-selected title:
shared-key-word (≥ 2 shared tokens), then overlap ratio `> 0.3` when both
token sets are non-empty. -/
def similarTitles (candTitle selTitle : String) : Bool :=
  let cw := keyWords candTitle
  let sw := keyWords selTitle
  let inter := cw.filter (fun w => decide (w ∈ sw))
  if 2 ≤ inter.length then true
  else if !cw.isEmpty && !sw.isEmpty then
    decide ((inter.length : ℚ) / (min cw.length sw.length : ℚ) > 3/10)
  else false

/-- `candidate_techniques - selected_techniques` is non-empty. -/
def hasNovelTechnique (c : Scored) (selected : List Scored) : Bool :=
  c.recipe.techniques.any (fun t =>
    selected.all (fun s => !(decide (t ∈ s.recipe.techniques))))

/-- The main `for candidate in scored_recipes[1:]` loop of
`_select_diverse_recipes`, with the early `break` once `count` items are
selected. -/
def selectLoop (count : Nat) : List Scored → List Scored → List Scored
  | selected, [] => selected
  | selected, c :: rest =>
    if count ≤ selected.length then selected
    else if selected.any (fun s =>
        similarTitles (lowerStr c.recipe.title) (lowerStr s.recipe.title)) then
      selectLoop count selected rest
    else if hasNovelTechnique c selected || decide (selected.length < count) then
      selectLoop count (selected ++ [c]) rest
    else
      selectLoop count selected rest

/-- The backfill loop: append remaining candidates not already selected
(`if candidate not in selected`), ignoring similarity, until `count`. -/
def backfillLoop (count : Nat) : List Scored → List Scored → List Scored
  | selected, [] => selected
  | selected, c :: rest =>
    if count ≤ selected.length then selected
    else if decide (c ∈ selected) then backfillLoop count selected rest
    else backfillLoop count (selected ++ [c]) rest

/-- `_select_diverse_recipes(scored_recipes, count)`. -/
def select_diverse_recipes (scored : List Scored) (count : Nat) : List Scored :=
  if scored.length ≤ count then scored
  else
    match scored with
    | [] => []
    | top :: rest =>
      let sel := selectLoop count [top] rest
      if sel.length < count then backfillLoop count sel scored else sel

/-! ### The personalization engine's deterministic core

`personalization_engine_agent` minus the LLM reasoning step: exclusion
filtering, dietary filtering with the relax-to-empty fallback, scoring,
stable descending sort, and diversity selection of 3 from the top 6.
Returns (scored set, final selection); `final_cards` is the selection
mapped one-to-one through the (external) reasoning projection. -/

/-- The exclusion filter (`excluded_urls`) followed by the dietary filter
pass and its relax-to-empty fallback when fewer than 2 survive. -/
def engineFilterPhase (restrictions excluded : List String) (skill : String)
    (raw : List Recipe) : List Recipe :=
  let raw1 := raw.filter (fun r => !(decide (r.url ∈ excluded)))
  let firstPass := filter_recipes raw1 restrictions skill
  if firstPass.length < 2 then filter_recipes raw1 [] skill else firstPass

def personalizationCore (goal skill : String)
    (restrictions excluded : List String) (raw : List Recipe) :
    List Scored × List Scored :=
  let filtered := engineFilterPhase restrictions excluded skill raw
  let scored := sortScored (filtered.map (fun r => ⟨r, score_recipe goal skill r⟩))
  let selected := select_diverse_recipes (scored.take 6) 3
  (scored, selected)

/-! ### Extraction stage cap (`recipe_hunter_agent`)

The search/parse loop is external (Tavily + LLM); whatever list it
accumulates, the state update is `all_recipes[:2]`. -/
def recipe_hunter_output (parsed : List Recipe) : List Recipe := parsed.take 2

/-! ### Orchestrator (graph.py, state.py) -/

/-- `RecipeState` of state.py, restricted to fields the orchestrator and
the embedded agents touch.  `final_cards` carries the selection entries
(each real card is one selection entry plus external reasoning text). -/
structure WorkflowState where
  learning_goal : String
  skill_level : String
  dietary_restrictions : List String
  search_queries : List String
  search_strategy : String
  raw_recipes : List Recipe
  scored_recipes : List Scored
  final_cards : List Scored
  errors : List String
  tavily_calls : Nat
  llm_calls : Nat
  retry_count : Nat
  deriving DecidableEq, Repr

/-- `create_initial_state(learning_goal, skill_level, dietary_restrictions=None)`;
`dietary_restrictions or []` maps `None` and `[]` alike to `[]`. -/
def create_initial_state (learning_goal skill_level : String)
    (dietary_restrictions : Option (List String)) : WorkflowState :=
  { learning_goal := learning_goal
    skill_level := skill_level
    dietary_restrictions := dietary_restrictions.getD []
    search_queries := []
    search_strategy := "initial"
    raw_recipes := []
    scored_recipes := []
    final_cards := []
    errors := []
    tavily_calls := 0
    llm_calls := 0
    retry_count := 0 }

/-- The two possible values of the conditional edge. -/
inductive Route
  | research_planner
  | technique_validator
  deriving DecidableEq, Repr

def MAX_RETRIES : Nat := 2

/-- `route_after_recipe_hunter(state)`: the decision function, returning
the mutated state together with the next node name. -/
def route_after_recipe_hunter (s : WorkflowState) : WorkflowState × Route :=
  if s.raw_recipes.length < 2 ∧ s.retry_count < MAX_RETRIES then
    ({ s with
        search_strategy := "broadened"
        retry_count := s.retry_count + 1
        errors := s.errors ++
          ["Low recipe count (" ++ toString s.raw_recipes.length ++
           "), retrying with broader search"] },
     Route.research_planner)
  else (s, Route.technique_validator)

/-- One pass through the entry chain (research planner + recipe hunter),
with the external search/LLM behaviour abstracted by oracles: invocation
`k` yields parsed candidates `found k` (capped at 2 by the recipe hunter)
and may append warnings `logs k`.  Neither agent writes `retry_count`. -/
def entryChainStep (found : Nat → List Recipe) (logs : Nat → List String)
    (k : Nat) (s : WorkflowState) : WorkflowState :=
  { s with
      raw_recipes := recipe_hunter_output (found k)
      errors := s.errors ++ logs k
      llm_calls := s.llm_calls + 1
      tavily_calls := s.tavily_calls + 1 }

/-- The extraction/retry cycle of the compiled graph: run the entry chain,
evaluate the conditional edge once, loop on `research_planner`, stop on
`technique_validator`.  Returns the state handed to the terminal chain and
the total number of entry-chain invocations performed, starting from `k`
prior invocations.  `fuel` bounds the recursion; it is irrelevant once
large enough (see the C2 theorems). -/
def extractionLoop (found : Nat → List Recipe) (logs : Nat → List String) :
    Nat → WorkflowState → Nat → WorkflowState × Nat
  | 0, s, k => (s, k)
  | fuel + 1, s, k =>
    if (route_after_recipe_hunter (entryChainStep found logs k s)).2 =
        Route.research_planner then
      extractionLoop found logs fuel
        (route_after_recipe_hunter (entryChainStep found logs k s)).1 (k + 1)
    else ((route_after_recipe_hunter (entryChainStep found logs k s)).1, k + 1)

/-! ### Spec-side comparison definitions -/

/-- Spec-side variant of the selection loop whose acceptance condition drops
the tag-novelty disjunct: every candidate that survives both
title-similarity tests is appended (subject only to the `count` cut-off). -/
def selectLoopPlain (count : Nat) : List Scored → List Scored → List Scored
  | selected, [] => selected
  | selected, c :: rest =>
    if count ≤ selected.length then selected
    else if selected.any (fun s =>
        similarTitles (lowerStr c.recipe.title) (lowerStr s.recipe.title)) then
      selectLoopPlain count selected rest
    else selectLoopPlain count (selected ++ [c]) rest

/-- Amended recency band table: most-recent band 20, next 15, then 10,
else 5; an unknown (missing or `"Unknown"`) date contributes 0 — not the
10 the original claim states. -/
def recencyBandAmended (p : String) : ℚ :=
  if p = "" ∨ p = "Unknown" then 0
  else if strContains p "2024" || strContains p "2025" then 20
  else if strContains p "2023" then 15
  else if strContains p "2022" then 10
  else 5

/-! ### Concrete data for witnesses and counterexamples -/

/-- A candidate record with the listed title, url, technique tags and
ingredients, and every defaulted field absent. -/
def mkRecipe (t u : String) (techs ings : List String) : Recipe :=
  { title := t, url := u, techniques := techs, ingredients := ings,
    instructions := [], time_estimate := "", difficulty := none,
    published_date := none, tavily_score := none,
    source := "Serious Eats", author := "Unknown" }

/-- Duplicate-prone candidate: its three key title words make any copy of it
fail the shared-key-word test against another copy. -/
def dupRecipe : Recipe := mkRecipe "Red Wine Sauce" "u1" [] []

/-- Two candidates with the same identifier (url) and different content. -/
def sameUrlA : Recipe := mkRecipe "Lemon Butter Chicken" "u" ["searing"] []

def sameUrlB : Recipe := mkRecipe "Mushroom Steak Dinner" "u" ["basting"] []

/-- Five candidates that all contain a forbidden term ("chicken") for the
vegetarian restriction. -/
def chickenRecipe (i : Nat) : Recipe :=
  mkRecipe ("Chicken Dish " ++ toString i) ("c" ++ toString i) [] ["chicken breast"]

def fiveChicken : List Recipe :=
  [chickenRecipe 1, chickenRecipe 2, chickenRecipe 3, chickenRecipe 4, chickenRecipe 5]

/-- Four pairwise-distinct candidates with dissimilar titles. -/
def distinctA : Recipe := mkRecipe "Lemon Butter Chicken" "d1" ["searing"] []

def distinctB : Recipe := mkRecipe "Mushroom Cream Steak" "d2" ["basting"] []

def distinctC : Recipe := mkRecipe "Balsamic Pork Glaze" "d3" ["deglazing"] []

def distinctD : Recipe := mkRecipe "White Fish Piccata" "d4" ["reduction"] []

/-! ## Theorems -/

/-! ### Decision-function helper lemmas -/

theorem route_pos (s : WorkflowState)
    (h : s.raw_recipes.length < 2 ∧ s.retry_count < MAX_RETRIES) :
    route_after_recipe_hunter s =
      ({ s with
          search_strategy := "broadened"
          retry_count := s.retry_count + 1
          errors := s.errors ++
            ["Low recipe count (" ++ toString s.raw_recipes.length ++
             "), retrying with broader search"] },
       Route.research_planner) := by
  unfold route_after_recipe_hunter
  rw [if_pos h]

theorem route_neg (s : WorkflowState)
    (h : ¬(s.raw_recipes.length < 2 ∧ s.retry_count < MAX_RETRIES)) :
    route_after_recipe_hunter s = (s, Route.technique_validator) := by
  unfold route_after_recipe_hunter
  rw [if_neg h]

theorem route_retry_count_le (s : WorkflowState) :
    s.retry_count ≤ (route_after_recipe_hunter s).1.retry_count := by
  by_cases h : s.raw_recipes.length < 2 ∧ s.retry_count < MAX_RETRIES
  · rw [route_pos s h]
    exact Nat.le_succ _
  · rw [route_neg s h]

theorem route_retry_count_le_max (s : WorkflowState)
    (h : s.retry_count ≤ MAX_RETRIES) :
    (route_after_recipe_hunter s).1.retry_count ≤ MAX_RETRIES := by
  by_cases hc : s.raw_recipes.length < 2 ∧ s.retry_count < MAX_RETRIES
  · rw [route_pos s hc]
    exact hc.2
  · rw [route_neg s hc]
    exact h

theorem entryChainStep_retry_count (found : Nat → List Recipe)
    (logs : Nat → List String) (k : Nat) (s : WorkflowState) :
    (entryChainStep found logs k s).retry_count = s.retry_count := rfl

/-- C1: after the extraction stage, the decision function routes to retry
(`research_planner`) exactly when fewer than 2 candidates were found and
`retry_count < MAX_RETRIES`; in that case it sets `search_strategy` to
`"broadened"`, increments `retry_count` by exactly 1 and appends one
warning to the error log; in every other case it routes to the validation
chain (`technique_validator`) and leaves the state unchanged. -/
theorem C1_route_decision (s : WorkflowState) :
    ((route_after_recipe_hunter s).2 = Route.research_planner ↔
      (s.raw_recipes.length < 2 ∧ s.retry_count < MAX_RETRIES)) ∧
    (s.raw_recipes.length < 2 ∧ s.retry_count < MAX_RETRIES →
      (route_after_recipe_hunter s).1.search_strategy = "broadened" ∧
      (route_after_recipe_hunter s).1.retry_count = s.retry_count + 1 ∧
      (route_after_recipe_hunter s).1.errors = s.errors ++
        ["Low recipe count (" ++ toString s.raw_recipes.length ++
         "), retrying with broader search"]) ∧
    (¬(s.raw_recipes.length < 2 ∧ s.retry_count < MAX_RETRIES) →
      (route_after_recipe_hunter s).2 = Route.technique_validator ∧
      (route_after_recipe_hunter s).1 = s) := by
  by_cases h : s.raw_recipes.length < 2 ∧ s.retry_count < MAX_RETRIES
  · rw [route_pos s h]
    refine ⟨by simp [h], fun _ => ⟨rfl, rfl, rfl⟩, fun hn => absurd h hn⟩
  · rw [route_neg s h]
    refine ⟨by simp [h], fun hp => absurd hp h, fun _ => ⟨rfl, rfl⟩⟩

theorem C1_route_decision_witness :
    (route_after_recipe_hunter (create_initial_state "pan sauces" "beginner" none)).2 =
      Route.research_planner ∧
    (route_after_recipe_hunter
      (create_initial_state "pan sauces" "beginner" none)).1.retry_count = 1 := by
  refine ⟨(C1_route_decision _).1.mpr (by decide), ?_⟩
  exact ((C1_route_decision
    (create_initial_state "pan sauces" "beginner" none)).2.1 (by decide)).2.1.trans (by decide)

/-- C10: in the diversity-selection loop, the tag-novelty condition never
causes a rejection on its own: the loop equals the variant that appends
every candidate surviving both title-similarity tests, because the
disjunct `len(selected) < count` always holds where the condition is
evaluated (the loop has already broken out otherwise). -/
theorem C10_tag_novelty_vacuous (count : Nat) (selected cands : List Scored) :
    selectLoop count selected cands = selectLoopPlain count selected cands := by
  induction cands generalizing selected with
  | nil => rfl
  | cons c rest ih =>
    simp only [selectLoop, selectLoopPlain]
    by_cases h1 : count ≤ selected.length
    · rw [if_pos h1, if_pos h1]
    · rw [if_neg h1, if_neg h1]
      by_cases h2 : selected.any (fun s =>
          similarTitles (lowerStr c.recipe.title) (lowerStr s.recipe.title)) = true
      · rw [if_pos h2, if_pos h2]
        exact ih selected
      · rw [if_neg h2, if_neg h2]
        have hlt : decide (selected.length < count) = true :=
          decide_eq_true (Nat.lt_of_not_le h1)
        rw [hlt, Bool.or_true, if_pos rfl]
        exact ih (selected ++ [c])

/-! ### Orchestrator loop lemmas -/

theorem route_retry_elim (s : WorkflowState)
    (h : (route_after_recipe_hunter s).2 = Route.research_planner) :
    s.retry_count < MAX_RETRIES ∧
    (route_after_recipe_hunter s).1.retry_count = s.retry_count + 1 := by
  by_cases hc : s.raw_recipes.length < 2 ∧ s.retry_count < MAX_RETRIES
  · rw [route_pos s hc]
    exact ⟨hc.2, rfl⟩
  · rw [route_neg s hc] at h
    exact absurd h (by simp)

theorem extractionLoop_retry_mono (found : Nat → List Recipe)
    (logs : Nat → List String) (fuel : Nat) :
    ∀ (s : WorkflowState) (k : Nat),
      s.retry_count ≤ (extractionLoop found logs fuel s k).1.retry_count := by
  induction fuel with
  | zero => exact fun s k => le_refl _
  | succ fuel ih =>
    intro s k
    simp only [extractionLoop]
    by_cases hc : (route_after_recipe_hunter (entryChainStep found logs k s)).2 =
        Route.research_planner
    · rw [if_pos hc]
      have h1 : s.retry_count ≤
          (route_after_recipe_hunter (entryChainStep found logs k s)).1.retry_count := by
        rw [← entryChainStep_retry_count found logs k s]
        exact route_retry_count_le _
      exact le_trans h1 (ih _ _)
    · rw [if_neg hc]
      rw [← entryChainStep_retry_count found logs k s]
      exact route_retry_count_le _

theorem extractionLoop_retry_le_max (found : Nat → List Recipe)
    (logs : Nat → List String) (fuel : Nat) :
    ∀ (s : WorkflowState) (k : Nat), s.retry_count ≤ MAX_RETRIES →
      (extractionLoop found logs fuel s k).1.retry_count ≤ MAX_RETRIES := by
  induction fuel with
  | zero => exact fun s k h => h
  | succ fuel ih =>
    intro s k h
    have h1 : (entryChainStep found logs k s).retry_count ≤ MAX_RETRIES := h
    simp only [extractionLoop]
    by_cases hc : (route_after_recipe_hunter (entryChainStep found logs k s)).2 =
        Route.research_planner
    · rw [if_pos hc]
      exact ih _ _ (route_retry_count_le_max _ h1)
    · rw [if_neg hc]
      exact route_retry_count_le_max _ h1

theorem extractionLoop_invocations (found : Nat → List Recipe)
    (logs : Nat → List String) (fuel : Nat) :
    ∀ (s : WorkflowState) (k : Nat), s.retry_count ≤ MAX_RETRIES →
      (extractionLoop found logs fuel s k).2 ≤
        k + (MAX_RETRIES + 1 - s.retry_count) := by
  induction fuel with
  | zero =>
    intro s k h
    exact Nat.le_add_right k _
  | succ fuel ih =>
    intro s k h
    simp only [extractionLoop]
    by_cases hc : (route_after_recipe_hunter (entryChainStep found logs k s)).2 =
        Route.research_planner
    · rw [if_pos hc]
      obtain ⟨hlt, hinc⟩ := route_retry_elim _ hc
      have hlt' : s.retry_count < MAX_RETRIES := hlt
      have hrc : (route_after_recipe_hunter
          (entryChainStep found logs k s)).1.retry_count = s.retry_count + 1 := hinc
      have hrec := ih (route_after_recipe_hunter (entryChainStep found logs k s)).1
        (k + 1) (by rw [hrc]; omega)
      rw [hrc] at hrec
      omega
    · rw [if_neg hc]
      have : s.retry_count ≤ MAX_RETRIES := h
      omega

theorem extractionLoop_fuel_irrel (found : Nat → List Recipe)
    (logs : Nat → List String) (f1 : Nat) :
    ∀ (f2 : Nat) (s : WorkflowState) (k : Nat), 1 ≤ f1 → 1 ≤ f2 →
      MAX_RETRIES + 1 ≤ s.retry_count + f1 →
      MAX_RETRIES + 1 ≤ s.retry_count + f2 →
      extractionLoop found logs f1 s k = extractionLoop found logs f2 s k := by
  induction f1 with
  | zero => exact fun f2 s k h1 => absurd h1 (by omega)
  | succ f1 ih =>
    intro f2 s k h1 h2 h3 h4
    cases f2 with
    | zero => exact absurd h2 (by omega)
    | succ f2 =>
      simp only [extractionLoop]
      by_cases hc : (route_after_recipe_hunter (entryChainStep found logs k s)).2 =
          Route.research_planner
      · rw [if_pos hc, if_pos hc]
        obtain ⟨hlt, hinc⟩ := route_retry_elim _ hc
        have hlt' : s.retry_count < MAX_RETRIES := hlt
        have hrc : (route_after_recipe_hunter
            (entryChainStep found logs k s)).1.retry_count = s.retry_count + 1 := hinc
        apply ih f2 _ (k + 1) (by omega) (by omega) (by rw [hrc]; omega)
          (by rw [hrc]; omega)
      · rw [if_neg hc, if_neg hc]

/-- C2: `retry_count` starts at 0 (`create_initial_state`), never decreases
across the extraction/retry cycle, never exceeds `MAX_RETRIES = 2`, and the
decision function never routes to retry once `retry_count = MAX_RETRIES`;
consequently, for any behaviour of the extraction stage (the `found`/`logs`
oracles, including always returning zero candidates), the entry chain is
invoked at most `MAX_RETRIES + 1 = 3` times before the run advances
(a fuel of 3 already produces the final answer). -/
theorem C2_retry_budget :
    (∀ (g sk : String) (dr : Option (List String)),
      (create_initial_state g sk dr).retry_count = 0) ∧
    (∀ (found : Nat → List Recipe) (logs : Nat → List String)
        (fuel : Nat) (s : WorkflowState) (k : Nat),
      s.retry_count ≤ (extractionLoop found logs fuel s k).1.retry_count) ∧
    (∀ (found : Nat → List Recipe) (logs : Nat → List String)
        (fuel : Nat) (s : WorkflowState) (k : Nat), s.retry_count ≤ MAX_RETRIES →
      (extractionLoop found logs fuel s k).1.retry_count ≤ MAX_RETRIES) ∧
    (∀ s : WorkflowState, s.retry_count = MAX_RETRIES →
      (route_after_recipe_hunter s).2 = Route.technique_validator) ∧
    (∀ (found : Nat → List Recipe) (logs : Nat → List String)
        (fuel : Nat) (s : WorkflowState), s.retry_count = 0 →
      (extractionLoop found logs fuel s 0).2 ≤ MAX_RETRIES + 1) ∧
    (∀ (found : Nat → List Recipe) (logs : Nat → List String)
        (fuel : Nat) (s : WorkflowState), s.retry_count = 0 →
      MAX_RETRIES + 1 ≤ fuel →
      extractionLoop found logs fuel s 0 =
        extractionLoop found logs (MAX_RETRIES + 1) s 0) := by
  refine ⟨fun g sk dr => rfl,
    extractionLoop_retry_mono,
    extractionLoop_retry_le_max,
    ?_, ?_, ?_⟩
  · intro s h
    have hn : ¬(s.raw_recipes.length < 2 ∧ s.retry_count < MAX_RETRIES) := by
      intro hc
      rw [h] at hc
      exact absurd hc.2 (lt_irrefl _)
    rw [route_neg s hn]
  · intro found logs fuel s h
    have := extractionLoop_invocations found logs fuel s 0 (by rw [h]; exact Nat.zero_le _)
    rw [h] at this
    omega
  · intro found logs fuel s h hf
    exact extractionLoop_fuel_irrel found logs fuel (MAX_RETRIES + 1) s 0
      (by omega) (by omega) (by omega) (by omega)

theorem C2_retry_budget_witness :
    (create_initial_state "pan sauces" "beginner" none).retry_count = 0 ∧
    (extractionLoop (fun _ => []) (fun _ => []) 5
      (create_initial_state "pan sauces" "beginner" none) 0).2 ≤ MAX_RETRIES + 1 ∧
    (extractionLoop (fun _ => []) (fun _ => []) 5
      (create_initial_state "pan sauces" "beginner" none) 0).1.retry_count ≤
        MAX_RETRIES := by
  refine ⟨C2_retry_budget.1 "pan sauces" "beginner" none,
    C2_retry_budget.2.2.2.2.1 (fun _ => []) (fun _ => []) 5 _ rfl,
    C2_retry_budget.2.2.1 (fun _ => []) (fun _ => []) 5 _ 0 (by decide)⟩

/-- C4 counterexample: an unknown published date (`"Unknown"`, or missing,
which defaults to `""`) contributes 0 recency points, not the 10 the claim
states. -/
theorem C4_recency_counterexample :
    recencyScore "Unknown" = 0 ∧ recencyScore "" = 0 ∧
      ¬(recencyScore "Unknown" = 10) := by
  refine ⟨rfl, rfl, ?_⟩
  intro h
  exact absurd h (by decide)

/-- C4 (amended): the recency term is banded — 20 for the most-recent band
(2024/2025), 15 for 2023, 10 for 2022, else 5 — and a missing or
`"Unknown"` published date contributes 0 (not 10). -/
theorem C4_recency_amended (p : String) : recencyScore p = recencyBandAmended p := by
  unfold recencyScore recencyBandAmended
  by_cases h : p = "" ∨ p = "Unknown"
  · rcases h with h | h <;> simp [h]
  · push_neg at h
    simp [h, h.1, h.2]

/-! ### Stable-sort lemmas -/

theorem insertScored_perm (x : Scored) (l : List Scored) :
    List.Perm (insertScored x l) (x :: l) := by
  induction l with
  | nil => exact List.Perm.refl _
  | cons y ys ih =>
    unfold insertScored
    by_cases h : y.score ≤ x.score
    · rw [if_pos h]
    · rw [if_neg h]
      exact (ih.cons y).trans (List.Perm.swap x y ys)

theorem sortScored_perm (l : List Scored) : List.Perm (sortScored l) l := by
  induction l with
  | nil => exact List.Perm.refl _
  | cons x xs ih => exact (insertScored_perm x (sortScored xs)).trans (ih.cons x)

theorem sortScored_length (l : List Scored) :
    (sortScored l).length = l.length :=
  (sortScored_perm l).length_eq

theorem insertScored_pairwise (x : Scored) (l : List Scored)
    (h : l.Pairwise (fun a b => b.score ≤ a.score)) :
    (insertScored x l).Pairwise (fun a b => b.score ≤ a.score) := by
  induction l with
  | nil => simp [insertScored]
  | cons y ys ih =>
    unfold insertScored
    obtain ⟨hy, hys⟩ := List.pairwise_cons.mp h
    by_cases hxy : y.score ≤ x.score
    · rw [if_pos hxy]
      refine List.Pairwise.cons ?_ h
      intro z hz
      rcases List.mem_cons.mp hz with rfl | hzys
      · exact hxy
      · exact le_trans (hy z hzys) hxy
    · rw [if_neg hxy]
      have hx : x.score ≤ y.score := le_of_lt (not_le.mp hxy)
      refine List.Pairwise.cons ?_ (ih hys)
      intro z hz
      have hz2 : z ∈ x :: ys := (insertScored_perm x ys).mem_iff.mp hz
      rcases List.mem_cons.mp hz2 with rfl | hzys
      · exact hx
      · exact hy z hzys

theorem sortScored_pairwise (l : List Scored) :
    (sortScored l).Pairwise (fun a b => b.score ≤ a.score) := by
  induction l with
  | nil => exact List.Pairwise.nil
  | cons x xs ih => exact insertScored_pairwise x _ ih

theorem insertScored_filter_eq (x : Scored) (l : List Scored) (c : ℚ)
    (hx : x.score = c) :
    (insertScored x l).filter (fun e => decide (e.score = c)) =
      x :: l.filter (fun e => decide (e.score = c)) := by
  induction l with
  | nil => simp [insertScored, hx]
  | cons y ys ih =>
    unfold insertScored
    by_cases hxy : y.score ≤ x.score
    · rw [if_pos hxy, List.filter_cons, List.filter_cons]
      simp [hx]
    · rw [if_neg hxy]
      have hyc : ¬(y.score = c) := by
        rw [← hx]
        intro hh
        exact hxy (le_of_eq hh)
      rw [List.filter_cons, List.filter_cons]
      simp [hyc, ih]

theorem insertScored_filter_ne (x : Scored) (l : List Scored) (c : ℚ)
    (hx : ¬(x.score = c)) :
    (insertScored x l).filter (fun e => decide (e.score = c)) =
      l.filter (fun e => decide (e.score = c)) := by
  induction l with
  | nil => simp [insertScored, hx]
  | cons y ys ih =>
    unfold insertScored
    by_cases hxy : y.score ≤ x.score
    · rw [if_pos hxy, List.filter_cons, List.filter_cons]
      simp [hx]
    · rw [if_neg hxy, List.filter_cons, List.filter_cons]
      simp [ih]

theorem sortScored_filter_score (l : List Scored) (c : ℚ) :
    (sortScored l).filter (fun e => decide (e.score = c)) =
      l.filter (fun e => decide (e.score = c)) := by
  induction l with
  | nil => rfl
  | cons x xs ih =>
    by_cases hx : x.score = c
    · simp only [sortScored]
      rw [insertScored_filter_eq x _ c hx, ih, List.filter_cons]
      simp [hx]
    · simp only [sortScored]
      rw [insertScored_filter_ne x _ c hx, ih, List.filter_cons]
      simp [hx]

/-- C7: the engine's scored set is the stable descending sort of the scored
candidates in original candidate order: the sort is a permutation of its
input, is sorted by total score descending, and for every score value the
subsequence of entries with that score equals the input's subsequence — so
of two candidates with identical computed total score, the one appearing
earlier in the input candidate sequence appears earlier in the sorted set. -/
theorem C7_stable_descending_sort :
    (∀ (goal skill : String) (restr excl : List String) (raw : List Recipe),
      (personalizationCore goal skill restr excl raw).1 =
        sortScored ((engineFilterPhase restr excl skill raw).map
          (fun r => ⟨r, score_recipe goal skill r⟩))) ∧
    (∀ l : List Scored, List.Perm (sortScored l) l) ∧
    (∀ l : List Scored,
      (sortScored l).Pairwise (fun a b => b.score ≤ a.score)) ∧
    (∀ (l : List Scored) (c : ℚ),
      (sortScored l).filter (fun e => decide (e.score = c)) =
        l.filter (fun e => decide (e.score = c))) :=
  ⟨fun _ _ _ _ _ => rfl, sortScored_perm, sortScored_pairwise, sortScored_filter_score⟩

/-! ### Score-term bounds -/

/-- C8: the per-candidate scoring sub-terms obey their stated bounds: the
learning-value term equals `min(10 × match_count, 30)` and lies in [0,30];
the source-relevance term equals the extraction relevance score × 15 (0.5
substituted when absent) and lies in [0,15] whenever that score is in
[0,1]; the tag-diversity term is always one of 0, 5, 10; and the
skill-match term comes from the fixed 3×3 matrix — 25 on exact match,
symmetric −10 for the two-level mismatches, small positive one-level-off
values, default 10 for an unrecognized candidate difficulty — and always
lies in −10..25. -/
theorem C8_score_term_bounds :
    (∀ relevant techs : List String,
      learningScore relevant techs =
        min ((matchCount relevant techs : ℚ) * 10) 30 ∧
      0 ≤ learningScore relevant techs ∧ learningScore relevant techs ≤ 30) ∧
    (sourceScore none = (1/2 : ℚ) * 15 ∧ ∀ q : ℚ, sourceScore (some q) = q * 15) ∧
    (∀ ts : Option ℚ, (∀ q, ts = some q → 0 ≤ q ∧ q ≤ 1) →
      0 ≤ sourceScore ts ∧ sourceScore ts ≤ 15) ∧
    (∀ techs : List String,
      diversityScore techs = 0 ∨ diversityScore techs = 5 ∨
        diversityScore techs = 10) ∧
    (∀ skill diff : String,
      -10 ≤ skillScore skill diff ∧ skillScore skill diff ≤ 25) ∧
    (skillScore "beginner" "beginner" = 25 ∧
      skillScore "intermediate" "intermediate" = 25 ∧
      skillScore "advanced" "advanced" = 25) ∧
    (skillScore "beginner" "advanced" = -10 ∧
      skillScore "advanced" "beginner" = -10) ∧
    (0 < skillScore "beginner" "intermediate" ∧
      0 < skillScore "intermediate" "beginner" ∧
      0 < skillScore "intermediate" "advanced" ∧
      0 < skillScore "advanced" "intermediate") ∧
    (∀ skill diff : String,
      diff ≠ "beginner" → diff ≠ "intermediate" → diff ≠ "advanced" →
      skillScore skill diff = 10) := by
  refine ⟨?_, ⟨rfl, fun q => rfl⟩, ?_, ?_, ?_, ?_, ?_, ?_, ?_⟩
  · intro relevant techs
    refine ⟨rfl, le_min (by positivity) (by norm_num), min_le_right _ _⟩
  · intro ts h
    cases ts with
    | none => norm_num [sourceScore]
    | some q =>
      obtain ⟨h0, h1⟩ := h q rfl
      constructor
      · show (0:ℚ) ≤ q * 15
        exact mul_nonneg h0 (by norm_num)
      · show q * 15 ≤ 15
        nlinarith
  · intro techs
    unfold diversityScore
    split_ifs
    · right; right; rfl
    · right; left; rfl
    · left; rfl
  · intro skill diff
    unfold skillScore
    split_ifs <;> norm_num
  · exact by with_unfolding_all decide
  · exact by with_unfolding_all decide
  · exact by with_unfolding_all decide
  · intro skill diff h1 h2 h3
    unfold skillScore
    split_ifs <;> simp_all

theorem C8_score_term_bounds_witness :
    (0 ≤ sourceScore (some (3/4)) ∧ sourceScore (some (3/4)) ≤ 15) ∧
    skillScore "beginner" "expert" = 10 := by
  constructor
  · refine C8_score_term_bounds.2.2.1 (some (3/4)) (fun q hq => ?_)
    obtain rfl : q = 3/4 := (Option.some.inj hq).symm
    norm_num
  · exact C8_score_term_bounds.2.2.2.2.2.2.2.2 "beginner" "expert"
      (by decide) (by decide) (by decide)

/-! ### Engine filter-phase and length lemmas -/

theorem filter_recipes_nil_restrictions (l : List Recipe) (sk : String) :
    filter_recipes l [] sk = l := by
  simp [filter_recipes, violatesDietary]

theorem engineFilterPhase_length_le (restr excl : List String) (skill : String)
    (raw : List Recipe) :
    (engineFilterPhase restr excl skill raw).length ≤ raw.length := by
  simp only [engineFilterPhase, filter_recipes]
  split <;>
    exact le_trans (List.length_filter_le _ _) (List.length_filter_le _ _)

theorem select_diverse_recipes_small (l : List Scored) (count : Nat)
    (h : l.length ≤ count) : select_diverse_recipes l count = l := by
  unfold select_diverse_recipes
  rw [if_pos h]

/-- C3 counterexample: two candidates with the same identifier (url `"u"`)
and different content both survive into the scored set — it has two entries
for that identifier, not exactly one. -/
theorem C3_dedup_counterexample :
    ((personalizationCore "pan sauces" "beginner" [] []
        [sameUrlA, sameUrlB]).1.countP
      (fun e => decide (e.recipe.url = "u"))) = 2 ∧
    ¬(((personalizationCore "pan sauces" "beginner" [] []
        [sameUrlA, sameUrlB]).1.countP
      (fun e => decide (e.recipe.url = "u"))) = 1) := by
  with_unfolding_all decide

/-- C3 (amended): candidate identifiers are not deduplicated.  Exclusion
filtering removes exactly the candidates whose url is excluded, and the
scored set keeps one entry per candidate surviving the filter phase: for
every identifier, the number of scored entries with that identifier equals
the number of surviving candidates with it — duplicates are retained, not
dropped. -/
theorem C3_no_dedup (goal skill : String) (restr excl : List String)
    (raw : List Recipe) (u : String) :
    ((personalizationCore goal skill restr excl raw).1.countP
      (fun e => decide (e.recipe.url = u))) =
    ((engineFilterPhase restr excl skill raw).countP
      (fun r => decide (r.url = u))) := by
  show ((sortScored ((engineFilterPhase restr excl skill raw).map
      (fun r => ⟨r, score_recipe goal skill r⟩))).countP
      (fun e => decide (e.recipe.url = u))) = _
  rw [List.Perm.countP_eq _ (sortScored_perm _), List.countP_map]
  rfl

/-- C6: if dietary filtering leaves fewer than 2 candidates, the filter
phase is re-run over the same (exclusion-filtered) input with the dietary
constraints relaxed to the empty list; that second pass keeps every input
candidate, and every surviving candidate is scored, so the scored set
covers all of them. -/
theorem C6_filter_fallback (goal skill : String) (restr excl : List String)
    (raw : List Recipe) :
    (∀ (l : List Recipe) (sk : String), filter_recipes l [] sk = l) ∧
    ((filter_recipes (raw.filter (fun r => !(decide (r.url ∈ excl)))) restr
        skill).length < 2 →
      engineFilterPhase restr excl skill raw =
        raw.filter (fun r => !(decide (r.url ∈ excl))) ∧
      (personalizationCore goal skill restr excl raw).1.length =
        (raw.filter (fun r => !(decide (r.url ∈ excl)))).length ∧
      (∀ r ∈ raw.filter (fun r => !(decide (r.url ∈ excl))),
        ∃ e ∈ (personalizationCore goal skill restr excl raw).1,
          e.recipe = r)) := by
  refine ⟨filter_recipes_nil_restrictions, fun h => ?_⟩
  have hef : engineFilterPhase restr excl skill raw =
      raw.filter (fun r => !(decide (r.url ∈ excl))) := by
    simp only [engineFilterPhase]
    rw [if_pos h]
    exact filter_recipes_nil_restrictions _ _
  refine ⟨hef, ?_, ?_⟩
  · show (sortScored ((engineFilterPhase restr excl skill raw).map
        (fun r => ⟨r, score_recipe goal skill r⟩))).length = _
    rw [sortScored_length, List.length_map, hef]
  · intro r hr
    refine ⟨⟨r, score_recipe goal skill r⟩, ?_, rfl⟩
    have hm : (⟨r, score_recipe goal skill r⟩ : Scored) ∈
        ((engineFilterPhase restr excl skill raw).map
          (fun r => ⟨r, score_recipe goal skill r⟩)) := by
      rw [hef]
      exact List.mem_map_of_mem _ hr
    exact ((sortScored_perm _).mem_iff).mpr hm

theorem C6_filter_fallback_witness :
    (personalizationCore "pan sauces" "beginner" ["vegetarian"] []
      fiveChicken).1.length = 5 := by
  have h := (C6_filter_fallback "pan sauces" "beginner" ["vegetarian"] []
    fiveChicken).2 (by decide)
  exact h.2.1.trans (by decide)

/-- C9: the extraction stage caps its output at 2 candidates
(`all_recipes[:2]`), so however the validation stage thins them, the
scored set and the final selection contain at most 2 items, even though
the selection phase is invoked with K = 3. -/
theorem C9_extraction_cap (parsed : List Recipe) :
    (recipe_hunter_output parsed).length ≤ 2 ∧
    (∀ (goal skill : String) (restr excl : List String)
        (validated : List Recipe),
      validated.Sublist (recipe_hunter_output parsed) →
      (personalizationCore goal skill restr excl validated).1.length ≤ 2 ∧
      (personalizationCore goal skill restr excl validated).2.length ≤ 2) := by
  constructor
  · exact List.length_take_le 2 parsed
  · intro goal skill restr excl validated hsub
    have hv : validated.length ≤ 2 :=
      le_trans hsub.length_le (List.length_take_le 2 parsed)
    have hs : (personalizationCore goal skill restr excl validated).1.length ≤ 2 := by
      show (sortScored ((engineFilterPhase restr excl skill validated).map
          (fun r => ⟨r, score_recipe goal skill r⟩))).length ≤ 2
      rw [sortScored_length, List.length_map]
      exact le_trans (engineFilterPhase_length_le restr excl skill validated) hv
    refine ⟨hs, ?_⟩
    show (select_diverse_recipes
      ((personalizationCore goal skill restr excl validated).1.take 6) 3).length ≤ 2
    have htl : ((personalizationCore goal skill restr excl validated).1.take 6).length ≤ 2 := by
      rw [List.length_take]
      omega
    rw [select_diverse_recipes_small _ 3 (by omega)]
    exact htl

theorem C9_extraction_cap_witness :
    (recipe_hunter_output [distinctA, distinctB, distinctC]).length ≤ 2 ∧
    (personalizationCore "pan sauces" "beginner" [] []
      (recipe_hunter_output [distinctA, distinctB, distinctC])).2.length ≤ 2 := by
  refine ⟨(C9_extraction_cap [distinctA, distinctB, distinctC]).1, ?_⟩
  exact ((C9_extraction_cap [distinctA, distinctB, distinctC]).2 "pan sauces"
    "beginner" [] [] _ (List.Sublist.refl _)).2

/-! ### Diversity-selection length lemmas -/

theorem selectLoop_length_le (count : Nat) :
    ∀ (cands sel : List Scored), sel.length ≤ count →
      (selectLoop count sel cands).length ≤ count := by
  intro cands
  induction cands with
  | nil => exact fun sel h => h
  | cons c rest ih =>
    intro sel h
    simp only [selectLoop]
    by_cases h1 : count ≤ sel.length
    · rw [if_pos h1]
      exact h
    · rw [if_neg h1]
      by_cases h2 : sel.any (fun s =>
          similarTitles (lowerStr c.recipe.title) (lowerStr s.recipe.title)) = true
      · rw [if_pos h2]
        exact ih sel h
      · rw [if_neg h2]
        by_cases h3 : (hasNovelTechnique c sel || decide (sel.length < count)) = true
        · rw [if_pos h3]
          apply ih
          rw [List.length_append]
          simp only [List.length_singleton]
          omega
        · rw [if_neg h3]
          exact ih sel h

theorem backfillLoop_length_le (count : Nat) :
    ∀ (cands sel : List Scored), sel.length ≤ count →
      (backfillLoop count sel cands).length ≤ count := by
  intro cands
  induction cands with
  | nil => exact fun sel h => h
  | cons c rest ih =>
    intro sel h
    simp only [backfillLoop]
    by_cases h1 : count ≤ sel.length
    · rw [if_pos h1]
      exact h
    · rw [if_neg h1]
      by_cases h2 : decide (c ∈ sel) = true
      · rw [if_pos h2]
        exact ih sel h
      · rw [if_neg h2]
        apply ih
        rw [List.length_append]
        simp only [List.length_singleton]
        omega

theorem length_filter_mem_partition (l sel : List Scored) :
    (l.filter (fun c => decide (c ∈ sel))).length +
      (l.filter (fun c => !(decide (c ∈ sel)))).length = l.length := by
  induction l with
  | nil => rfl
  | cons x xs ih =>
    rw [List.filter_cons, List.filter_cons]
    cases hd : decide (x ∈ sel) with
    | true =>
      simp only [hd, Bool.not_true, if_true, if_false, List.length_cons,
        Bool.false_eq_true, reduceIte]
      omega
    | false =>
      simp only [hd, Bool.not_false, if_true, if_false, List.length_cons,
        Bool.false_eq_true, reduceIte]
      omega

theorem filter_mem_length_le (l sel : List Scored) (hnd : l.Nodup) :
    (l.filter (fun c => decide (c ∈ sel))).length ≤ sel.length := by
  have hsub : l.filter (fun c => decide (c ∈ sel)) ⊆ sel := by
    intro x hx
    exact of_decide_eq_true (List.mem_filter.mp hx).2
  exact ((hnd.filter _).subperm hsub).length_le

theorem backfillLoop_reaches (count : Nat) :
    ∀ (cands sel : List Scored), cands.Nodup →
      count ≤ sel.length +
        (cands.filter (fun c => !(decide (c ∈ sel)))).length →
      count ≤ (backfillLoop count sel cands).length := by
  intro cands
  induction cands with
  | nil =>
    intro sel _ h
    simpa using h
  | cons c rest ih =>
    intro sel hnd h
    simp only [backfillLoop]
    by_cases h1 : count ≤ sel.length
    · rw [if_pos h1]
      exact h1
    · rw [if_neg h1]
      by_cases h2 : decide (c ∈ sel) = true
      · rw [if_pos h2]
        apply ih sel hnd.of_cons
        have hfe : List.filter (fun x => !(decide (x ∈ sel))) (c :: rest) =
            List.filter (fun x => !(decide (x ∈ sel))) rest := by
          rw [List.filter_cons]
          simp [of_decide_eq_true h2]
        rw [hfe] at h
        exact h
      · rw [if_neg h2]
        apply ih (sel ++ [c]) hnd.of_cons
        have hc : c ∉ sel := fun hm => h2 (decide_eq_true hm)
        have hcr : c ∉ rest := (List.nodup_cons.mp hnd).1
        have hfe : rest.filter (fun x => !(decide (x ∈ sel ++ [c]))) =
            rest.filter (fun x => !(decide (x ∈ sel))) := by
          apply List.filter_congr
          intro x hx
          have hxc : ¬(x = c) := fun he => hcr (he ▸ hx)
          simp [List.mem_append, hxc]
        have hhd : (List.filter (fun x => !(decide (x ∈ sel))) (c :: rest)).length =
            (List.filter (fun x => !(decide (x ∈ sel))) rest).length + 1 := by
          rw [List.filter_cons]
          simp [hc]
        rw [hfe, List.length_append]
        simp only [List.length_singleton]
        rw [hhd] at h
        omega

theorem select_diverse_length_eq (l : List Scored) (hnd : l.Nodup)
    (h3 : 3 ≤ l.length) : (select_diverse_recipes l 3).length = 3 := by
  by_cases hle : l.length ≤ 3
  · rw [select_diverse_recipes_small l 3 hle]
    omega
  · cases l with
    | nil => simp at h3 hle
    | cons top rest =>
      unfold select_diverse_recipes
      rw [if_neg hle]
      show (if (selectLoop 3 [top] rest).length < 3
            then backfillLoop 3 (selectLoop 3 [top] rest) (top :: rest)
            else selectLoop 3 [top] rest).length = 3
      have hsle : (selectLoop 3 [top] rest).length ≤ 3 :=
        selectLoop_length_le 3 rest [top] (by simp)
      by_cases hlt : (selectLoop 3 [top] rest).length < 3
      · rw [if_pos hlt]
        have hub : (backfillLoop 3 (selectLoop 3 [top] rest) (top :: rest)).length ≤ 3 :=
          backfillLoop_length_le 3 (top :: rest) _ (by omega)
        have hlb : 3 ≤ (backfillLoop 3 (selectLoop 3 [top] rest) (top :: rest)).length := by
          apply backfillLoop_reaches 3 (top :: rest) _ hnd
          have hpart := length_filter_mem_partition (top :: rest) (selectLoop 3 [top] rest)
          have hmem := filter_mem_length_le (top :: rest) (selectLoop 3 [top] rest) hnd
          have hlen : 3 < (top :: rest).length := Nat.lt_of_not_le hle
          omega
        omega
      · rw [if_neg hlt]
        omega

/-- C5 counterexample: the scored set built from four identical candidates
has 4 ≥ 3 entries, yet the diversity-selection phase (with its backfill
rule) returns only 1 card — `min(K, |scored set|)` fails for duplicated
entries, because the backfill pass skips every candidate already equal to a
selected one. -/
theorem C5_selection_size_counterexample :
    3 ≤ (personalizationCore "pan sauces" "beginner" [] []
      [dupRecipe, dupRecipe, dupRecipe, dupRecipe]).1.length ∧
    ¬((personalizationCore "pan sauces" "beginner" [] []
      [dupRecipe, dupRecipe, dupRecipe, dupRecipe]).2.length = 3) := by
  with_unfolding_all decide

/-- C5 (amended): whenever the scored set has fewer than 3 entries, the
selection returns every scored candidate; and whenever the scored set
(truncated to the top 6 the selection phase consumes) has pairwise-distinct
entries and at least 3 of them, the selection returns exactly 3 cards.
Without the distinctness proviso the original claim fails
(duplicated identical entries defeat the backfill rule). -/
theorem C5_selection_size (goal skill : String) (restr excl : List String)
    (raw : List Recipe) :
    ((personalizationCore goal skill restr excl raw).1.length < 3 →
      (personalizationCore goal skill restr excl raw).2 =
        (personalizationCore goal skill restr excl raw).1) ∧
    (((personalizationCore goal skill restr excl raw).1.take 6).Nodup →
      3 ≤ (personalizationCore goal skill restr excl raw).1.length →
      (personalizationCore goal skill restr excl raw).2.length = 3) := by
  constructor
  · intro h
    show select_diverse_recipes
      ((personalizationCore goal skill restr excl raw).1.take 6) 3 = _
    rw [List.take_of_length_le (by omega)]
    exact select_diverse_recipes_small _ 3 (by omega)
  · intro hnd h3
    show (select_diverse_recipes
      ((personalizationCore goal skill restr excl raw).1.take 6) 3).length = 3
    apply select_diverse_length_eq _ hnd
    rw [List.length_take]
    omega

theorem C5_selection_size_witness :
    (personalizationCore "pan sauces" "beginner" [] []
      [distinctA, distinctB, distinctC, distinctD]).2.length = 3 := by
  exact (C5_selection_size "pan sauces" "beginner" [] []
    [distinctA, distinctB, distinctC, distinctD]).2
    (by with_unfolding_all decide) (by with_unfolding_all decide)

end Ratatouille
